import Mathlib

/-!
Verification development for the watchlist-kata media service.

The repository contains two generations of the lookup-merge-reconcile
pipeline:

* a TMDB-era variant (`internal/service/service.go`, first part): media
  records are `api.Media` values keyed by `TmdbId`; `GetMediasByName`
  merges local and catalog results (local-first, first occurrence wins)
  and launches `updateDatabaseAsync` as detached reconciliation;
* a Kinopoisk-era variant (same file, second part, plus
  `internal/repository/repository.go`): records are `protos/media.Media`
  values keyed by `KinopoiskId`; the merge loop itself talks to the
  repository (create/update during merge).

Go structs become Lean structures, Go maps become functions
`Int → Option _`, fallible calls return `Except`, and the I/O context
(logging, cancellation) is dropped: every function below models the
non-cancelled execution path, and repository behaviour reached through
the `repository.Repository` interface is passed in explicitly (either as
a store value that is threaded through, or as a fixed oracle of
responses).
-/

/-- The TMDB-era media record (`api.Media`, used by the first
`service.go` variant and its repository).  Field names follow the Go
struct: `Id` is the internal primary key, `TmdbId` the external catalog
id. -/
structure Media where
  id : Int
  tmdbId : Int
  type : String
  title : String
  titleRu : String
  description : String
  descriptionRu : String
  releaseDate : String
  poster : String
deriving DecidableEq, Repr

/-- `needsUpdate` (TMDB variant, service.go lines 128-136): compares the
six display fields; `Type` and the internal/external ids are not
compared, and the Go function dereferences its pointer arguments without
a nil check, so it is modelled on plain records. -/
def needsUpdate (localMedia tmdbMedia : Media) : Bool :=
  localMedia.title != tmdbMedia.title ||
  localMedia.titleRu != tmdbMedia.titleRu ||
  localMedia.description != tmdbMedia.description ||
  localMedia.descriptionRu != tmdbMedia.descriptionRu ||
  localMedia.releaseDate != tmdbMedia.releaseDate ||
  localMedia.poster != tmdbMedia.poster

/-- A Go `map[int64]*T` restricted to the operations the service uses
(lookup and insert) is exactly a function `Int → Option T`. -/
def MediaMap (α : Type) : Type := Int → Option α

def mapEmpty {α : Type} : MediaMap α := fun _ => none

def mapInsert {α : Type} (m : MediaMap α) (k : Int) (v : α) : MediaMap α :=
  fun i => if i = k then some v else m i

/-- One iteration of the catalog loop of the merge step
(service.go lines 81-86): a TMDB record is appended (and indexed) only
if its `TmdbId` is not yet in the map. -/
def mergeStep (acc : List Media × MediaMap Media) (tmdbMedia : Media) :
    List Media × MediaMap Media :=
  match acc.2 tmdbMedia.tmdbId with
  | some _ => acc
  | none => (acc.1 ++ [tmdbMedia], mapInsert acc.2 tmdbMedia.tmdbId tmdbMedia)

/-- The merge step of the TMDB-era `GetMediasByName`
(service.go lines 70-86): all local records are appended and indexed
unconditionally (lines 74-78), then catalog records are appended if
their id is new (lines 81-86). -/
def mergeMedias (localMedias tmdbMedias : List Media) : List Media :=
  let seeded := localMedias.foldl
    (fun (acc : List Media × MediaMap Media) media =>
      (acc.1 ++ [media], mapInsert acc.2 media.tmdbId media))
    ([], mapEmpty)
  (tmdbMedias.foldl mergeStep seeded).1

/-- The TMDB-era `GetMediasByName` (service.go lines 52-92) as a function
of the outcomes of its two outbound calls.  A catalog-search failure is
only logged and leaves `tmdbMedias` nil (the loop over nil does
nothing); a store failure is returned to the caller wrapped in the
message of line 66.  The async reconcile launched on line 89 is modelled
separately by `updateDatabaseAsync`. -/
def GetMediasByName (name : String)
    (searchResult : Except String (List Media))
    (repoResult : Except String (List Media)) : Except String (List Media) :=
  let tmdbMedias : List Media :=
    match searchResult with
    | .ok medias => medias
    | .error _ => []
  match repoResult with
  | .error e => .error ("failed to get medias by name " ++ name ++ " from DB: " ++ e)
  | .ok localMedias => .ok (mergeMedias localMedias tmdbMedias)

/-- A store write issued by the async reconcile phase: either a
service-level `UpdateMedia` call or a repository `CreateMedia` call. -/
inductive DbAction where
  | update (media : Media)
  | create (media : Media)
deriving DecidableEq, Repr

/-- The external catalog id a write is keyed by. -/
def DbAction.actionId : DbAction → Int
  | .update media => media.tmdbId
  | .create media => media.tmdbId

/-- The map of local records built at the start of `updateDatabaseAsync`
(service.go lines 95-101); as with a Go map, a later record with the
same `TmdbId` overwrites an earlier one. -/
def buildMediaMap (localMedias : List Media) : MediaMap Media :=
  localMedias.foldl (fun m media => mapInsert m media.tmdbId media) mapEmpty

/-- The write issued for a single catalog record in the loop of
`updateDatabaseAsync` (service.go lines 104-125): a known id is updated
only when `needsUpdate` fires, carrying over the local internal id
(line 108); an unknown id is created. -/
def asyncActionFor (mediaMap : MediaMap Media) (tmdbMedia : Media) : Option DbAction :=
  match mediaMap tmdbMedia.tmdbId with
  | some localMedia =>
    if needsUpdate localMedia tmdbMedia then
      some (.update { tmdbMedia with id := localMedia.id })
    else
      none
  | none => some (.create tmdbMedia)

/-- `updateDatabaseAsync` (service.go lines 94-126), modelled as the
trace of store writes it issues, in loop order.  Failures of the
individual writes are logged and dropped in Go and do not influence
which later writes are issued, so the trace is a pure function of the
two input lists. -/
def updateDatabaseAsync (localMedias tmdbMedias : List Media) : List DbAction :=
  tmdbMedias.filterMap (asyncActionFor (buildMediaMap localMedias))

/-- Specification-side helper (not from the Go source): deduplicate a
list to the first occurrence of each `TmdbId`, given the ids already
seen.  This renders the spec's "concatenation of `localResults` followed
by `catalogResults`, after removing later duplicates". -/
def dedupByFirst (seen : List Int) : List Media → List Media
  | [] => []
  | media :: rest =>
    if media.tmdbId ∈ seen then dedupByFirst seen rest
    else media :: dedupByFirst (seen ++ [media.tmdbId]) rest

/-- The last record in a list carrying a given `TmdbId` — the record a
Go map built by straight-line insertion would hold for that id. -/
def lastWithId : List Media → Int → Option Media
  | [], _ => none
  | media :: rest, i =>
    match lastWithId rest i with
    | some found => some found
    | none => if media.tmdbId = i then some media else none

/-- The Kinopoisk-era media record (`protos/media.Media`, used by the
second `service.go` variant and `internal/repository`).  The proto
message itself is generated outside this repository; its fields are
those read and written by the code in `src` (`gorm_models.go` assigns
`Countries`/`Genres` string-to-string, so the tag collections are the
comma-joined strings of this variant). -/
structure MediaKp where
  id : Int
  kinopoiskId : Int
  type : String
  nameEn : String
  nameRu : String
  description : String
  year : String
  poster : String
  countries : String
  genres : String
  createdAt : String
  updatedAt : String
deriving DecidableEq, Repr

/-- `needsUpdate` (Kinopoisk variant, service.go lines 543-558): a nil
operand on either side reports a difference; otherwise the external id,
kind and all display fields are compared, the tag fields via
`reflect.DeepEqual` (value equality). -/
def needsUpdateKp (existingMedia newMedia : Option MediaKp) : Bool :=
  match existingMedia, newMedia with
  | none, _ => true
  | _, none => true
  | some e, some n =>
    e.kinopoiskId != n.kinopoiskId ||
    e.type != n.type ||
    e.nameEn != n.nameEn ||
    e.nameRu != n.nameRu ||
    e.description != n.description ||
    e.year != n.year ||
    e.poster != n.poster ||
    e.countries != n.countries ||
    e.genres != n.genres

/-- The database row (`repository.GormMedia` of `gorm_models.go`).
`CreatedAt`/`UpdatedAt` are `time.Time` in Go; they are carried here as
their RFC3339 strings, with the format/parse round trip of the
converters abstracted as the identity (no claim inspects them). -/
structure GormMedia where
  id : Int
  kinopoiskId : Int
  type : String
  nameEn : String
  nameRu : String
  description : String
  year : String
  poster : String
  countries : String
  genres : String
  createdAt : String
  updatedAt : String
deriving DecidableEq, Repr

/-- `convertGormMediaToProtoMedia` (gorm_models.go). -/
def convertGormMediaToProtoMedia (gormMedia : GormMedia) : MediaKp :=
  { id := gormMedia.id
    kinopoiskId := gormMedia.kinopoiskId
    type := gormMedia.type
    nameEn := gormMedia.nameEn
    nameRu := gormMedia.nameRu
    description := gormMedia.description
    year := gormMedia.year
    poster := gormMedia.poster
    countries := gormMedia.countries
    genres := gormMedia.genres
    createdAt := gormMedia.createdAt
    updatedAt := gormMedia.updatedAt }

/-- `convertProtoMediaToGormMedia` (gorm_models.go). -/
def convertProtoMediaToGormMedia (protoMedia : MediaKp) : GormMedia :=
  { id := protoMedia.id
    kinopoiskId := protoMedia.kinopoiskId
    type := protoMedia.type
    nameEn := protoMedia.nameEn
    nameRu := protoMedia.nameRu
    description := protoMedia.description
    year := protoMedia.year
    poster := protoMedia.poster
    countries := protoMedia.countries
    genres := protoMedia.genres
    createdAt := protoMedia.createdAt
    updatedAt := protoMedia.updatedAt }

/-- Errors surfaced by the Kinopoisk-era repository.  `mediaNotFound` is
the sentinel `repository.ErrMediaNotFound` (returned when gorm reports
`ErrRecordNotFound`); `kinopoiskIdMismatch` is the immutable-external-id
error of `UpdateMedia` (repository.go line 149).  Infrastructure
failures of the database itself are outside this pure model. -/
inductive RepoErr where
  | mediaNotFound
  | kinopoiskIdMismatch
deriving DecidableEq, Repr

/-- `PostgresRepository.GetMediaByID` (repository.go lines 49-66):
primary-key lookup, converting the row to the proto shape. -/
def GetMediaByIDRepo (store : List GormMedia) (id : Int) : Except RepoErr MediaKp :=
  match store.find? (fun gormMedia => gormMedia.id == id) with
  | none => .error .mediaNotFound
  | some gormMedia => .ok (convertGormMediaToProtoMedia gormMedia)

/-- `PostgresRepository.UpdateMedia` (repository.go lines 131-179): look
up the row by primary key (`ErrMediaNotFound` when absent), refuse a
record whose `KinopoiskId` differs from the stored one, otherwise update
the eight mutable columns of that row (the `updates` map of lines
153-162; `kinopoisk_id`, `id` and `created_at` are not written) and
return the re-fetched row.  The second component is the store after the
call. -/
def UpdateMediaRepo (store : List GormMedia) (media : MediaKp) :
    Except RepoErr MediaKp × List GormMedia :=
  match store.find? (fun gormMedia => gormMedia.id == media.id) with
  | none => (.error .mediaNotFound, store)
  | some existingMedia =>
    if media.kinopoiskId != existingMedia.kinopoiskId then
      (.error .kinopoiskIdMismatch, store)
    else
      let gormUpdates := convertProtoMediaToGormMedia media
      let store' := store.map (fun gormMedia =>
        if gormMedia.id == media.id then
          { gormMedia with
            type := gormUpdates.type
            nameEn := gormUpdates.nameEn
            nameRu := gormUpdates.nameRu
            description := gormUpdates.description
            year := gormUpdates.year
            poster := gormUpdates.poster
            countries := gormUpdates.countries
            genres := gormUpdates.genres }
        else gormMedia)
      match GetMediaByIDRepo store' media.id with
      | .error e => (.error e, store')
      | .ok updatedMedia => (.ok updatedMedia, store')

/-- The responses of the `repository.Repository` collaborator as seen by
the Kinopoisk-era `GetMediasByName`.  The service is written against
this interface; a fixed oracle of responses is adequate because the
merge loop never re-reads a key it wrote (the media map guards every
repository read). -/
structure KpRepoOracle where
  getByName : Except String (List MediaKp)
  getByKpId : Int → Except RepoErr MediaKp
  createMedia : MediaKp → Except String MediaKp
  updateMedia : MediaKp → Except String MediaKp

/-- The in-place replacement loop of service.go lines 422-427: overwrite
the first result whose `KinopoiskId` matches the updated record. -/
def replaceFirstById (ptrs : List MediaKp) (updatedMedia : MediaKp) : List MediaKp :=
  match ptrs with
  | [] => []
  | media :: rest =>
    if media.kinopoiskId = updatedMedia.kinopoiskId then updatedMedia :: rest
    else media :: replaceFirstById rest updatedMedia

/-- One iteration of the Kinopoisk catalog loop (service.go lines
365-433), acting on the accumulated result list and media map.  The
branches follow the Go control flow: unknown id → repository lookup,
then create (with the timestamps set on lines 375-376) or fall back to
the catalog value; known-in-DB id → update when `needsUpdate` fires,
otherwise keep the DB version; id already in the results → in-place
replacement only when the local copy has a positive internal id and the
repository update succeeds. -/
def kpStep (repo : KpRepoOracle) (now : String)
    (acc : List MediaKp × MediaMap MediaKp) (kpMedia : MediaKp) :
    List MediaKp × MediaMap MediaKp :=
  let (ptrs, mediaMap) := acc
  match mediaMap kpMedia.kinopoiskId with
  | none =>
    match repo.getByKpId kpMedia.kinopoiskId with
    | .error .mediaNotFound =>
      let stamped := { kpMedia with createdAt := now, updatedAt := now }
      (match repo.createMedia stamped with
       | .error _ => (ptrs ++ [stamped], mapInsert mediaMap stamped.kinopoiskId stamped)
       | .ok savedMedia => (ptrs ++ [savedMedia], mapInsert mediaMap stamped.kinopoiskId stamped))
    | .error .kinopoiskIdMismatch =>
      (ptrs ++ [kpMedia], mapInsert mediaMap kpMedia.kinopoiskId kpMedia)
    | .ok dbMedia =>
      if needsUpdateKp (some dbMedia) (some kpMedia) then
        (match repo.updateMedia kpMedia with
         | .error _ => (ptrs ++ [dbMedia], mapInsert mediaMap kpMedia.kinopoiskId kpMedia)
         | .ok updatedMedia => (ptrs ++ [updatedMedia], mapInsert mediaMap kpMedia.kinopoiskId kpMedia))
      else
        (ptrs ++ [dbMedia], mapInsert mediaMap kpMedia.kinopoiskId kpMedia)
  | some existingMedia =>
    if needsUpdateKp (some existingMedia) (some kpMedia) then
      if existingMedia.id > 0 then
        let carried := { kpMedia with id := existingMedia.id }
        match repo.updateMedia carried with
        | .error _ => (ptrs, mediaMap)
        | .ok updatedMedia =>
          (replaceFirstById ptrs updatedMedia, mapInsert mediaMap kpMedia.kinopoiskId updatedMedia)
      else (ptrs, mediaMap)
    else (ptrs, mediaMap)

/-- The local seeding loop of the Kinopoisk merge (service.go lines
357-362): unlike the TMDB variant, a local record is appended only if
its id is not yet indexed. -/
def kpSeedLocals (localMedias : List MediaKp) : List MediaKp × MediaMap MediaKp :=
  localMedias.foldl
    (fun (acc : List MediaKp × MediaMap MediaKp) media =>
      match acc.2 media.kinopoiskId with
      | none => (acc.1 ++ [media], mapInsert acc.2 media.kinopoiskId media)
      | some _ => acc)
    ([], mapEmpty)

/-- The Kinopoisk-era `GetMediasByName` (service.go lines 322-442) as a
function of the request, the outcome of `SearchKinopoisk`, the
repository oracle and the current time.  Unlike the TMDB variant, a
catalog-search failure is returned to the caller (lines 340-344,
wrapped by `handleError`); only then is the store consulted. -/
def GetMediasByNameKp (req : Option String)
    (searchResult : Except String (List MediaKp))
    (repo : KpRepoOracle) (now : String) : Except String (List MediaKp) :=
  match req with
  | none => .error "invalid request: nil pointer"
  | some name =>
    if name = "" then .error "invalid name: cannot be empty"
    else
      match searchResult with
      | .error e => .error ("Failed to search Kinopoisk: failed to search Kinopoisk: " ++ e)
      | .ok kinopoiskMedias =>
        match repo.getByName with
        | .error e =>
          .error ("Failed to GetMediasByName from DB: failed to get medias by name "
            ++ name ++ " from DB: " ++ e)
        | .ok localMedias =>
          .ok ((kinopoiskMedias.foldl (kpStep repo now) (kpSeedLocals localMedias)).1)

/-- Gorm errors observed by the TMDB-era service: the repository of that
variant passes the raw `gorm.ErrRecordNotFound` through, which the
service recognises with `errors.Is`.  Other database failures are
outside this pure model. -/
inductive GormErr where
  | recordNotFound
deriving DecidableEq, Repr

/-- The TMDB-era repository `GetMediaByID` (`db.First(&media, id)`):
primary-key lookup on the media table. -/
def GetMediaByIDRepoT (store : List Media) (id : Int) : Except GormErr Media :=
  match store.find? (fun media => media.id == id) with
  | none => .error .recordNotFound
  | some media => .ok media

/-- The TMDB-era repository `UpdateMedia` (`db.Save(media)`): write every
field of the record over the row with the same primary key.  The service
only calls it after fetching that row, so the insert-on-zero-id branch
of gorm's `Save` is never reached and is not modelled. -/
def SaveMediaRepoT (store : List Media) (media : Media) : List Media :=
  store.map (fun row => if row.id == media.id then media else row)

/-- The TMDB-era service `UpdateMedia` (service.go lines 196-233): fetch
the existing record by internal id, refuse the call with "all fields are
the same, nothing to update" when all eight compared fields (line
208-215) coincide, otherwise save and return the re-fetched record.
The second component is the store after the call. -/
def UpdateMedia (store : List Media) (media : Media) : Except String Media × List Media :=
  match GetMediaByIDRepoT store media.id with
  | .error .recordNotFound =>
    (.error ("media with id " ++ toString media.id ++ " not found"), store)
  | .ok existingMedia =>
    if existingMedia.tmdbId == media.tmdbId &&
       existingMedia.type == media.type &&
       existingMedia.title == media.title &&
       existingMedia.titleRu == media.titleRu &&
       existingMedia.description == media.description &&
       existingMedia.descriptionRu == media.descriptionRu &&
       existingMedia.releaseDate == media.releaseDate &&
       existingMedia.poster == media.poster then
      (.error "all fields are the same, nothing to update", store)
    else
      let store' := SaveMediaRepoT store media
      match GetMediaByIDRepoT store' media.id with
      | .error .recordNotFound =>
        (.error ("failed to get updated media with id " ++ toString media.id), store')
      | .ok updatedMedia => (.ok updatedMedia, store')

/-- Analysis-side helper: the row the store holds for the id of catalog
record `c` after one run of `updateDatabaseAsync` over `localMedias`,
assuming every issued write succeeded.  An issued update goes through
`db.Save` and stores the carried record verbatim; an issued create
stores the record under a store-assigned internal id (`freshId`, a
parameter because primary-key assignment happens inside the database);
an id with no issued write keeps its local row. -/
def persistedAfterRun (localMedias : List Media) (freshId : Int) (c : Media) : Media :=
  match buildMediaMap localMedias c.tmdbId with
  | some localMedia =>
    if needsUpdate localMedia c then { c with id := localMedia.id } else localMedia
  | none => { c with id := freshId }

/-! Concrete sample records used by witnesses and counterexamples. -/

def baseMedia : Media :=
  { id := 0, tmdbId := 0, type := "Movie", title := "", titleRu := "",
    description := "", descriptionRu := "", releaseDate := "", poster := "" }

def mLocal5 : Media := { baseMedia with id := 1, tmdbId := 5, title := "Old" }

def mLocal5b : Media := { baseMedia with id := 2, tmdbId := 5, title := "Old2" }

def mCatalog5 : Media := { baseMedia with tmdbId := 5, title := "New" }

def mOther9 : Media := { baseMedia with tmdbId := 9, title := "Other" }

def mTypeShow : Media := { baseMedia with type := "Show" }

def baseKp : MediaKp :=
  { id := 0, kinopoiskId := 0, type := "movie", nameEn := "", nameRu := "",
    description := "", year := "", poster := "", countries := "", genres := "",
    createdAt := "", updatedAt := "" }

def kBase : MediaKp := { baseKp with kinopoiskId := 5 }

def kOtherId : MediaKp := { baseKp with kinopoiskId := 6 }

def kLocal : MediaKp := { baseKp with id := 1, kinopoiskId := 10 }

def kOracle0 : KpRepoOracle :=
  { getByName := .ok [kLocal]
    getByKpId := fun _ => .error .mediaNotFound
    createMedia := fun media => .ok media
    updateMedia := fun media => .ok media }

def g1 : GormMedia :=
  { id := 1, kinopoiskId := 10, type := "movie", nameEn := "A", nameRu := "",
    description := "", year := "", poster := "", countries := "", genres := "",
    createdAt := "", updatedAt := "" }

def gStore0 : List GormMedia := [g1]

def mediaMiss : MediaKp := { baseKp with id := 2, kinopoiskId := 10 }

def mediaBad : MediaKp := { baseKp with id := 1, kinopoiskId := 11 }

-- Sanity checks on the spec's worked example (spec §8): merged output
-- keeps the locally indexed record, the async phase updates id 5 and
-- creates id 9.
example :
    mergeMedias
      [{ id := 1, tmdbId := 5, type := "Movie", title := "Old", titleRu := "",
         description := "", descriptionRu := "", releaseDate := "", poster := "" }]
      [{ id := 0, tmdbId := 5, type := "Movie", title := "New", titleRu := "",
         description := "", descriptionRu := "", releaseDate := "", poster := "" },
       { id := 0, tmdbId := 9, type := "Movie", title := "Other", titleRu := "",
         description := "", descriptionRu := "", releaseDate := "", poster := "" }] =
      [{ id := 1, tmdbId := 5, type := "Movie", title := "Old", titleRu := "",
         description := "", descriptionRu := "", releaseDate := "", poster := "" },
       { id := 0, tmdbId := 9, type := "Movie", title := "Other", titleRu := "",
         description := "", descriptionRu := "", releaseDate := "", poster := "" }] := by
  decide

example :
    updateDatabaseAsync
      [{ id := 1, tmdbId := 5, type := "Movie", title := "Old", titleRu := "",
         description := "", descriptionRu := "", releaseDate := "", poster := "" }]
      [{ id := 0, tmdbId := 5, type := "Movie", title := "New", titleRu := "",
         description := "", descriptionRu := "", releaseDate := "", poster := "" },
       { id := 0, tmdbId := 9, type := "Movie", title := "Other", titleRu := "",
         description := "", descriptionRu := "", releaseDate := "", poster := "" }] =
      [.update { id := 1, tmdbId := 5, type := "Movie", title := "New", titleRu := "",
                 description := "", descriptionRu := "", releaseDate := "", poster := "" },
       .create { id := 0, tmdbId := 9, type := "Movie", title := "Other", titleRu := "",
                 description := "", descriptionRu := "", releaseDate := "", poster := "" }] := by
  decide

/-! Infrastructure lemmas about the map model and the merge fold. -/

theorem mapInsert_self {α : Type} (m : MediaMap α) (k : Int) (v : α) :
    mapInsert m k v k = some v := by
  simp [mapInsert]

theorem mapInsert_other {α : Type} (m : MediaMap α) (k i : Int) (v : α) (h : i ≠ k) :
    mapInsert m k v i = m i := by
  simp [mapInsert, h]

theorem foldl_insert_lookup (ls : List Media) :
    ∀ (m : MediaMap Media) (i : Int),
      (ls.foldl (fun acc media => mapInsert acc media.tmdbId media) m) i =
        match lastWithId ls i with
        | some found => some found
        | none => m i := by
  induction ls with
  | nil => intro m i; rfl
  | cons media rest ih =>
    intro m i
    simp only [List.foldl_cons]
    rw [ih]
    cases h : lastWithId rest i with
    | some found => simp [lastWithId, h]
    | none =>
      simp only [lastWithId, h]
      by_cases hik : media.tmdbId = i
      · subst hik
        simp [mapInsert]
      · rw [if_neg hik, mapInsert_other _ _ _ _ (fun hcontra => hik hcontra.symm)]

theorem buildMediaMap_eq_lastWithId (ls : List Media) (i : Int) :
    buildMediaMap ls i = lastWithId ls i := by
  unfold buildMediaMap
  rw [foldl_insert_lookup ls mapEmpty i]
  cases lastWithId ls i <;> rfl

theorem lastWithId_mem (ls : List Media) (i : Int) :
    ∀ found, lastWithId ls i = some found → found ∈ ls ∧ found.tmdbId = i := by
  induction ls with
  | nil => intro found h; simp [lastWithId] at h
  | cons media rest ih =>
    intro found h
    simp only [lastWithId] at h
    cases hr : lastWithId rest i with
    | some f =>
      rw [hr] at h
      injection h with h
      subst h
      exact ⟨List.mem_cons_of_mem _ (ih f hr).1, (ih f hr).2⟩
    | none =>
      rw [hr] at h
      by_cases hik : media.tmdbId = i
      · rw [if_pos hik] at h
        injection h with h
        subst h
        exact ⟨List.mem_cons_self _ _, hik⟩
      · rw [if_neg hik] at h
        exact absurd h (by simp)

theorem lastWithId_none (ls : List Media) (i : Int)
    (h : ∀ l ∈ ls, l.tmdbId ≠ i) : lastWithId ls i = none := by
  induction ls with
  | nil => rfl
  | cons media rest ih =>
    simp only [lastWithId]
    rw [ih (fun l hl => h l (List.mem_cons_of_mem _ hl))]
    rw [if_neg (h media (List.mem_cons_self _ _))]

theorem lastWithId_nodup (ls : List Media) (i : Int) (l : Media)
    (hnd : (ls.map (fun media => media.tmdbId)).Nodup)
    (hmem : l ∈ ls) (hid : l.tmdbId = i) : lastWithId ls i = some l := by
  induction ls with
  | nil => cases hmem
  | cons media rest ih =>
    rw [List.map_cons, List.nodup_cons] at hnd
    obtain ⟨hhead, hrest⟩ := hnd
    rcases List.mem_cons.mp hmem with h | h
    · subst h
      have hnone : lastWithId rest i = none := by
        apply lastWithId_none
        intro x hx hxi
        apply hhead
        have hx' : x.tmdbId ∈ rest.map (fun media => media.tmdbId) :=
          List.mem_map_of_mem _ hx
        rwa [hxi, ← hid] at hx'
      simp only [lastWithId, hnone]
      rw [if_pos hid]
    · simp only [lastWithId, ih hrest h]

theorem mergeFold (cs : List Media) :
    ∀ (acc : List Media × MediaMap Media) (K : List Int),
      (∀ i, (acc.2 i).isSome ↔ i ∈ K) →
      (cs.foldl mergeStep acc).1 = acc.1 ++ dedupByFirst K cs := by
  induction cs with
  | nil => intro acc K _; simp [dedupByFirst]
  | cons c rest ih =>
    intro acc K hK
    simp only [List.foldl_cons]
    cases hc : acc.2 c.tmdbId with
    | some v =>
      have hmem : c.tmdbId ∈ K := (hK c.tmdbId).mp (by simp [hc])
      have hstep : mergeStep acc c = acc := by simp [mergeStep, hc]
      rw [hstep, ih acc K hK]
      simp [dedupByFirst, hmem]
    | none =>
      have hmem : c.tmdbId ∉ K := by
        intro h
        have h2 := (hK c.tmdbId).mpr h
        rw [hc] at h2
        simp at h2
      have hstep : mergeStep acc c = (acc.1 ++ [c], mapInsert acc.2 c.tmdbId c) := by
        simp [mergeStep, hc]
      have hK' : ∀ i, ((mapInsert acc.2 c.tmdbId c) i).isSome ↔ i ∈ K ++ [c.tmdbId] := by
        intro i
        by_cases hik : i = c.tmdbId
        · subst hik
          simp [mapInsert]
        · rw [mapInsert_other _ _ _ _ hik, hK i]
          simp [hik]
      rw [hstep, ih (acc.1 ++ [c], mapInsert acc.2 c.tmdbId c) (K ++ [c.tmdbId]) hK']
      simp [dedupByFirst, hmem, List.append_assoc]

theorem seedFold_list (ls : List Media) :
    ∀ (acc : List Media × MediaMap Media),
      (ls.foldl (fun acc media => (acc.1 ++ [media], mapInsert acc.2 media.tmdbId media)) acc).1
        = acc.1 ++ ls := by
  induction ls with
  | nil => intro acc; simp
  | cons media rest ih =>
    intro acc
    simp only [List.foldl_cons]
    rw [ih]
    simp

theorem seedFold_keys (ls : List Media) :
    ∀ (acc : List Media × MediaMap Media) (i : Int),
      (((ls.foldl (fun acc media => (acc.1 ++ [media], mapInsert acc.2 media.tmdbId media)) acc).2) i).isSome
        ↔ (acc.2 i).isSome ∨ i ∈ ls.map (fun media => media.tmdbId) := by
  induction ls with
  | nil => intro acc i; simp
  | cons media rest ih =>
    intro acc i
    simp only [List.foldl_cons]
    rw [ih]
    by_cases hik : i = media.tmdbId
    · subst hik
      simp [mapInsert]
    · rw [show ((acc.1 ++ [media], mapInsert acc.2 media.tmdbId media) : List Media × MediaMap Media).2
            = mapInsert acc.2 media.tmdbId media from rfl,
          mapInsert_other _ _ _ _ hik]
      simp [hik]

theorem mergeMedias_eq (locals catalogs : List Media) :
    mergeMedias locals catalogs
      = locals ++ dedupByFirst (locals.map (fun media => media.tmdbId)) catalogs := by
  show (catalogs.foldl mergeStep
      (locals.foldl (fun acc media => (acc.1 ++ [media], mapInsert acc.2 media.tmdbId media))
        ([], mapEmpty))).1 = _
  have h2 : ∀ i,
      (((locals.foldl (fun acc media => (acc.1 ++ [media], mapInsert acc.2 media.tmdbId media))
          (([], mapEmpty) : List Media × MediaMap Media)).2) i).isSome
        ↔ i ∈ locals.map (fun media => media.tmdbId) := by
    intro i
    rw [seedFold_keys locals ([], mapEmpty) i]
    simp [mapEmpty]
  rw [mergeFold catalogs _ _ h2, seedFold_list locals ([], mapEmpty)]
  simp

theorem dedupByFirst_append (ls : List Media) :
    ∀ (cs : List Media) (seen : List Int),
      (∀ l ∈ ls, l.tmdbId ∉ seen) →
      (ls.map (fun media => media.tmdbId)).Nodup →
      dedupByFirst seen (ls ++ cs)
        = ls ++ dedupByFirst (seen ++ ls.map (fun media => media.tmdbId)) cs := by
  induction ls with
  | nil => intro cs seen _ _; simp
  | cons media rest ih =>
    intro cs seen hseen hnd
    rw [List.map_cons, List.nodup_cons] at hnd
    obtain ⟨hhead, hrest⟩ := hnd
    have hnot : media.tmdbId ∉ seen := hseen media (List.mem_cons_self _ _)
    have hs : ∀ l ∈ rest, l.tmdbId ∉ seen ++ [media.tmdbId] := by
      intro x hx
      simp only [List.mem_append, List.mem_singleton]
      push_neg
      refine ⟨hseen x (List.mem_cons_of_mem _ hx), ?_⟩
      intro hxe
      exact hhead (hxe ▸ List.mem_map_of_mem _ hx)
    simp only [List.cons_append, dedupByFirst, List.append_eq]
    rw [if_neg hnot, ih cs (seen ++ [media.tmdbId]) hs hrest]
    simp [List.append_assoc]

theorem dedupByFirst_nodup (cs : List Media) :
    ∀ seen : List Int,
      ((dedupByFirst seen cs).map (fun media => media.tmdbId)).Nodup ∧
      ∀ i ∈ (dedupByFirst seen cs).map (fun media => media.tmdbId), i ∉ seen := by
  induction cs with
  | nil => intro seen; simp [dedupByFirst]
  | cons c rest ih =>
    intro seen
    by_cases hmem : c.tmdbId ∈ seen
    · simp only [dedupByFirst, if_pos hmem]
      exact ih seen
    · simp only [dedupByFirst, if_neg hmem]
      obtain ⟨hnd, hnotin⟩ := ih (seen ++ [c.tmdbId])
      constructor
      · rw [List.map_cons, List.nodup_cons]
        refine ⟨fun hin => ?_, hnd⟩
        have h := hnotin _ hin
        simp at h
      · intro i hi
        rw [List.map_cons, List.mem_cons] at hi
        rcases hi with h | h
        · subst h; exact hmem
        · have h2 := hnotin i h
          simp only [List.mem_append] at h2
          push_neg at h2
          exact h2.1

/-! Lemmas about the trace of writes issued by `updateDatabaseAsync`. -/

theorem asyncActionFor_id (m : MediaMap Media) (c : Media) (a : DbAction)
    (h : asyncActionFor m c = some a) : a.actionId = c.tmdbId := by
  unfold asyncActionFor at h
  split at h
  · split at h
    · injection h with h
      subst h
      rfl
    · exact absurd h (by simp)
  · injection h with h
    subst h
    rfl

theorem actionsFor_nil_of_not_mem (m : MediaMap Media) (cs : List Media) (i : Int)
    (h : i ∉ cs.map (fun media => media.tmdbId)) :
    (cs.filterMap (asyncActionFor m)).filter (fun a => a.actionId == i) = [] := by
  induction cs with
  | nil => rfl
  | cons c rest ih =>
    rw [List.map_cons, List.mem_cons] at h
    push_neg at h
    obtain ⟨hne, hrest⟩ := h
    cases hfc : asyncActionFor m c with
    | none =>
      rw [List.filterMap_cons_none hfc]
      exact ih hrest
    | some a =>
      rw [List.filterMap_cons_some hfc]
      have hid : a.actionId = c.tmdbId := asyncActionFor_id m c a hfc
      rw [List.filter_cons]
      have hfalse : (a.actionId == i) = false := by
        simp only [hid, beq_eq_false_iff_ne, ne_eq]
        exact fun hcontra => hne hcontra.symm
      rw [hfalse]
      simp only [Bool.false_eq_true, if_false]
      exact ih hrest

theorem actionsFor_singleton (m : MediaMap Media) (cs : List Media)
    (hc : (cs.map (fun media => media.tmdbId)).Nodup) (c : Media) (hmem : c ∈ cs) :
    (cs.filterMap (asyncActionFor m)).filter (fun a => a.actionId == c.tmdbId)
      = (asyncActionFor m c).toList := by
  induction cs with
  | nil => cases hmem
  | cons c' rest ih =>
    rw [List.map_cons, List.nodup_cons] at hc
    obtain ⟨hhead, hrest⟩ := hc
    rcases List.mem_cons.mp hmem with h | h
    · subst h
      have htail : (rest.filterMap (asyncActionFor m)).filter (fun a => a.actionId == c.tmdbId) = [] :=
        actionsFor_nil_of_not_mem m rest c.tmdbId hhead
      cases hfc : asyncActionFor m c with
      | none =>
        rw [List.filterMap_cons_none hfc, htail]
        rfl
      | some a =>
        rw [List.filterMap_cons_some hfc, List.filter_cons]
        have hid : a.actionId = c.tmdbId := asyncActionFor_id m c a hfc
        have htrue : (a.actionId == c.tmdbId) = true := by
          simp [hid]
        rw [htrue]
        simp only [if_true, htail]
        rfl
    · have hne : c'.tmdbId ≠ c.tmdbId := by
        intro hcontra
        exact hhead (hcontra ▸ List.mem_map_of_mem _ h)
      cases hfc : asyncActionFor m c' with
      | none =>
        rw [List.filterMap_cons_none hfc]
        exact ih hrest h
      | some a =>
        rw [List.filterMap_cons_some hfc, List.filter_cons]
        have hid : a.actionId = c'.tmdbId := asyncActionFor_id m c' a hfc
        have hfalse : (a.actionId == c.tmdbId) = false := by
          simp only [hid, beq_eq_false_iff_ne, ne_eq]
          exact hne
        rw [hfalse]
        simp only [Bool.false_eq_true, if_false]
        exact ih hrest h

theorem actionsFor_length_le_one (m : MediaMap Media) (cs : List Media)
    (hc : (cs.map (fun media => media.tmdbId)).Nodup) (i : Int) :
    ((cs.filterMap (asyncActionFor m)).filter (fun a => a.actionId == i)).length ≤ 1 := by
  by_cases hi : i ∈ cs.map (fun media => media.tmdbId)
  · obtain ⟨c, hcmem, hcid⟩ := List.mem_map.mp hi
    rw [← hcid, actionsFor_singleton m cs hc c hcmem]
    cases asyncActionFor m c <;> simp
  · rw [actionsFor_nil_of_not_mem m cs i hi]
    simp

/-! Lemmas about the state persisted by a successful reconcile run. -/

theorem asyncActionFor_none (m : MediaMap Media) (c l : Media)
    (hl : m c.tmdbId = some l) (hu : needsUpdate l c = false) :
    asyncActionFor m c = none := by
  unfold asyncActionFor
  rw [hl]
  simp [hu]

theorem asyncActionFor_update (m : MediaMap Media) (c l : Media)
    (hl : m c.tmdbId = some l) (hu : needsUpdate l c = true) :
    asyncActionFor m c = some (.update { c with id := l.id }) := by
  unfold asyncActionFor
  rw [hl]
  simp [hu]

theorem asyncActionFor_create (m : MediaMap Media) (c : Media)
    (hl : m c.tmdbId = none) :
    asyncActionFor m c = some (.create c) := by
  unfold asyncActionFor
  rw [hl]

theorem needsUpdate_withId (c : Media) (x : Int) :
    needsUpdate { c with id := x } c = false := by
  simp [needsUpdate]

theorem persistedAfterRun_eq_update (locals : List Media) (freshId : Int) (c l : Media)
    (h : buildMediaMap locals c.tmdbId = some l) (hu : needsUpdate l c = true) :
    persistedAfterRun locals freshId c = { c with id := l.id } := by
  unfold persistedAfterRun
  rw [h]
  simp [hu]

theorem persistedAfterRun_eq_local (locals : List Media) (freshId : Int) (c l : Media)
    (h : buildMediaMap locals c.tmdbId = some l) (hu : needsUpdate l c = false) :
    persistedAfterRun locals freshId c = l := by
  unfold persistedAfterRun
  rw [h]
  simp [hu]

theorem persistedAfterRun_eq_fresh (locals : List Media) (freshId : Int) (c : Media)
    (h : buildMediaMap locals c.tmdbId = none) :
    persistedAfterRun locals freshId c = { c with id := freshId } := by
  unfold persistedAfterRun
  rw [h]

theorem persistedAfterRun_tmdbId (locals : List Media) (freshId : Int) (c : Media) :
    (persistedAfterRun locals freshId c).tmdbId = c.tmdbId := by
  cases h : buildMediaMap locals c.tmdbId with
  | some l =>
    cases hu : needsUpdate l c with
    | true => rw [persistedAfterRun_eq_update locals freshId c l h hu]
    | false =>
      rw [persistedAfterRun_eq_local locals freshId c l h hu]
      exact (lastWithId_mem locals c.tmdbId l (by rwa [← buildMediaMap_eq_lastWithId])).2
  | none => rw [persistedAfterRun_eq_fresh locals freshId c h]

theorem needsUpdate_persisted (locals : List Media) (freshId : Int) (c : Media) :
    needsUpdate (persistedAfterRun locals freshId c) c = false := by
  cases h : buildMediaMap locals c.tmdbId with
  | some l =>
    cases hu : needsUpdate l c with
    | true =>
      rw [persistedAfterRun_eq_update locals freshId c l h hu]
      exact needsUpdate_withId c l.id
    | false =>
      rw [persistedAfterRun_eq_local locals freshId c l h hu]
      exact hu
  | none =>
    rw [persistedAfterRun_eq_fresh locals freshId c h]
    exact needsUpdate_withId c freshId

theorem persisted_map_ids (locals : List Media) (fresh : Media → Int) (catalogs : List Media) :
    ((catalogs.map (fun c => persistedAfterRun locals (fresh c) c)).map (fun media => media.tmdbId))
      = catalogs.map (fun media => media.tmdbId) := by
  induction catalogs with
  | nil => rfl
  | cons c rest ih =>
    simp only [List.map_cons, persistedAfterRun_tmdbId, ih]

theorem filterMap_eq_nil_of_none {α β : Type} (f : α → Option β) (l : List α)
    (h : ∀ a ∈ l, f a = none) : l.filterMap f = [] := by
  induction l with
  | nil => rfl
  | cons x rest ih =>
    rw [List.filterMap_cons_none (h x (List.mem_cons_self _ _))]
    exact ih (fun a ha => h a (List.mem_cons_of_mem _ ha))

/-! Claim theorems. -/

/-- C1: failing-input evaluation.  On `localResults = [mLocal5]` and
`catalogResults = [mCatalog5]` — the same external id 5 with differing
titles, so the Change Detector fires — the TMDB-era merge keeps the
stale local record at the id's first-occurrence position; the catalog
version's field values never reach the merged output, contradicting the
spec's local-first-seeding/overwrite-on-change property. -/
theorem mergeKeepsStaleLocal_C1 :
    needsUpdate mLocal5 mCatalog5 = true ∧
    mergeMedias [mLocal5] [mCatalog5] = [mLocal5] ∧
    mLocal5.title ≠ mCatalog5.title := by decide

/-- C2: counterexample.  With duplicate external ids already inside
`localResults` (possible input-wise, although the store's uniqueness
constraint prevents it in production), the merge appends every local
record unconditionally, so the output carries two records with the same
`TmdbId`. -/
theorem mergeDedup_counterexample_C2 :
    ¬ ((mergeMedias [mLocal5, mLocal5b] []).map (fun media => media.tmdbId)).Nodup := by
  decide

/-- C2 (amended): whenever `localResults` itself contains no two records
with the same `TmdbId`, the merged output of the TMDB-era
`GetMediasByName` contains no two records with the same `TmdbId`. -/
theorem mergeDedup_C2 (locals catalogs : List Media)
    (hl : (locals.map (fun media => media.tmdbId)).Nodup) :
    ((mergeMedias locals catalogs).map (fun media => media.tmdbId)).Nodup := by
  rw [mergeMedias_eq, List.map_append, List.nodup_append]
  obtain ⟨hnd, hdisj⟩ := dedupByFirst_nodup catalogs (locals.map (fun media => media.tmdbId))
  exact ⟨hl, hnd, fun i hi₁ hi₂ => hdisj i hi₂ hi₁⟩

/-- C2: witness for the amended theorem at a concrete input. -/
theorem mergeDedup_C2_witness :
    (([mLocal5].map (fun media => media.tmdbId)).Nodup) ∧
    (((mergeMedias [mLocal5] [mCatalog5, mOther9]).map (fun media => media.tmdbId)).Nodup) :=
  ⟨by decide, mergeDedup_C2 [mLocal5] [mCatalog5, mOther9] (by decide)⟩

/-- C3: counterexample.  With a duplicated id inside `localResults`, the
first occurrence of id 9 sits at position 2 of the merged output but at
position 1 of the first-occurrence deduplication of
`localResults ++ catalogResults`. -/
theorem mergePositions_counterexample_C3 :
    (mergeMedias [mLocal5, mLocal5b] [mOther9]).findIdx (fun media => media.tmdbId == 9) = 2 ∧
    (dedupByFirst [] ([mLocal5, mLocal5b] ++ [mOther9])).findIdx (fun media => media.tmdbId == 9) = 1 ∧
    (mergeMedias [mLocal5, mLocal5b] [mOther9]).findIdx (fun media => media.tmdbId == 9) ≠
      (dedupByFirst [] ([mLocal5, mLocal5b] ++ [mOther9])).findIdx (fun media => media.tmdbId == 9) := by
  decide

/-- C3 (amended): whenever `localResults` contains no duplicate
`TmdbId`, the merged output is exactly the concatenation of
`localResults` and `catalogResults` deduplicated to first occurrences —
in particular every id occurs once, at the position of its first
occurrence in the concatenation. -/
theorem mergePositions_C3 (locals catalogs : List Media)
    (hl : (locals.map (fun media => media.tmdbId)).Nodup) :
    mergeMedias locals catalogs = dedupByFirst [] (locals ++ catalogs) := by
  rw [mergeMedias_eq, dedupByFirst_append locals catalogs [] (by simp) hl]
  simp

/-- C3: witness for the amended theorem at a concrete input. -/
theorem mergePositions_C3_witness :
    (([mLocal5].map (fun media => media.tmdbId)).Nodup) ∧
    mergeMedias [mLocal5] [mCatalog5, mOther9]
      = dedupByFirst [] ([mLocal5] ++ [mCatalog5, mOther9]) :=
  ⟨by decide, mergePositions_C3 [mLocal5] [mCatalog5, mOther9] (by decide)⟩

/-- C4: counterexample.  In the Kinopoisk-era variant a catalog-search
failure is surfaced to the caller even though the store is available
(`kOracle0.getByName` succeeds), and in the TMDB-era variant the
degraded result is `localResults` as-is, which is not deduplicated when
the store results carry a duplicate id. -/
theorem lookupDegradation_counterexample_C4 :
    (kOracle0.getByName = .ok [kLocal] ∧
     GetMediasByNameKp (some "x") (.error "boom") kOracle0 "t0"
       = .error "Failed to search Kinopoisk: failed to search Kinopoisk: boom") ∧
    (GetMediasByName "x" (.error "boom") (.ok [mLocal5, mLocal5b]) = .ok [mLocal5, mLocal5b] ∧
     dedupByFirst [] [mLocal5, mLocal5b] = [mLocal5] ∧
     ([mLocal5, mLocal5b] : List Media) ≠ [mLocal5]) := by
  exact ⟨⟨rfl, rfl⟩, rfl, by decide, by decide⟩

/-- C4 (amended): in the TMDB-era variant, when the catalog search fails
and the store query succeeds, `GetMediasByName` returns a nil error and
`localResults` unchanged — equal to `localResults` deduplicated by
`TmdbId` whenever the store results are duplicate-free; in the
Kinopoisk-era variant a catalog-search failure is fatal and surfaced to
the caller. -/
theorem catalogFailureDegrades_C4 (name e now : String) (locals : List Media)
    (repo : KpRepoOracle)
    (hl : (locals.map (fun media => media.tmdbId)).Nodup) (hn : name ≠ "") :
    (GetMediasByName name (.error e) (.ok locals) = .ok locals ∧
     dedupByFirst [] locals = locals) ∧
    GetMediasByNameKp (some name) (.error e) repo now
      = .error ("Failed to search Kinopoisk: failed to search Kinopoisk: " ++ e) := by
  refine ⟨⟨?_, ?_⟩, ?_⟩
  · show Except.ok (mergeMedias locals []) = Except.ok locals
    rw [mergeMedias_eq]
    simp [dedupByFirst]
  · have h := dedupByFirst_append locals [] [] (by simp) hl
    simpa [dedupByFirst] using h
  · simp [GetMediasByNameKp, hn]

/-- C4: witness for the amended theorem at a concrete input. -/
theorem catalogFailureDegrades_C4_witness :
    ((GetMediasByName "x" (.error "boom") (.ok [mLocal5]) = .ok [mLocal5] ∧
      dedupByFirst [] [mLocal5] = [mLocal5]) ∧
     GetMediasByNameKp (some "x") (.error "boom") kOracle0 "t0"
       = .error ("Failed to search Kinopoisk: failed to search Kinopoisk: " ++ "boom")) :=
  catalogFailureDegrades_C4 "x" "boom" "t0" [mLocal5] kOracle0 (by decide) (by decide)

/-- C5: whatever the catalog search returned, a failing store name-match
query makes the TMDB-era `GetMediasByName` return the wrapped store
error and no media list. -/
theorem storeFailureFatal_C5 (name e : String) (searchResult : Except String (List Media)) :
    GetMediasByName name searchResult (.error e)
      = .error ("failed to get medias by name " ++ name ++ " from DB: " ++ e) := rfl

/-- C6: counterexample.  The TMDB-era `needsUpdate` ignores the `Type`
(kind) field — two records differing only in kind compare as "no update
needed" — while the Kinopoisk-era `needsUpdate` also fires on a pure
external-id difference with every display field equal. -/
theorem needsUpdate_counterexample_C6 :
    (baseMedia.type ≠ mTypeShow.type ∧ needsUpdate baseMedia mTypeShow = false) ∧
    (needsUpdateKp (some kBase) (some kOtherId) = true ∧
     kBase.kinopoiskId ≠ kOtherId.kinopoiskId ∧
     kBase.type = kOtherId.type ∧ kBase.nameEn = kOtherId.nameEn ∧
     kBase.nameRu = kOtherId.nameRu ∧ kBase.description = kOtherId.description ∧
     kBase.year = kOtherId.year ∧ kBase.poster = kOtherId.poster ∧
     kBase.countries = kOtherId.countries ∧ kBase.genres = kOtherId.genres) := by
  decide

/-- C6 (amended): exact characterization of both change detectors.  The
TMDB-era `needsUpdate` returns true iff one of the six compared display
fields differs (kind and tags are not compared, operands are assumed
non-nil); the Kinopoisk-era `needsUpdateKp` returns true iff an operand
is nil or the external id, kind, a display field or a tag collection
(by value) differs.  Both are total Lean functions, hence deterministic
and crash-free on all well-formed records. -/
theorem needsUpdate_characterization_C6 (a b : Media) (x y : Option MediaKp) :
    (needsUpdate a b = true ↔
      (a.title ≠ b.title ∨ a.titleRu ≠ b.titleRu ∨ a.description ≠ b.description ∨
       a.descriptionRu ≠ b.descriptionRu ∨ a.releaseDate ≠ b.releaseDate ∨
       a.poster ≠ b.poster)) ∧
    (needsUpdateKp x y = true ↔
      (x = none ∨ y = none ∨
       ∃ e n, x = some e ∧ y = some n ∧
         (e.kinopoiskId ≠ n.kinopoiskId ∨ e.type ≠ n.type ∨ e.nameEn ≠ n.nameEn ∨
          e.nameRu ≠ n.nameRu ∨ e.description ≠ n.description ∨ e.year ≠ n.year ∨
          e.poster ≠ n.poster ∨ e.countries ≠ n.countries ∨ e.genres ≠ n.genres))) := by
  constructor
  · simp only [needsUpdate, Bool.or_eq_true, bne_iff_ne, ne_eq]
    tauto
  · cases x <;> cases y <;>
      · simp only [needsUpdateKp, Bool.or_eq_true, bne_iff_ne, ne_eq]
        simp
        try tauto

/-- C7: the Kinopoisk-era repository `UpdateMedia` fails with
`ErrMediaNotFound` when no row carries the internal id, and fails with
the kinopoisk-id-mismatch error — leaving the store unchanged — when
the caller's record carries a different external id than the stored
row. -/
theorem updateMediaRepoGuards_C7 (store : List GormMedia) (media : MediaKp) :
    (store.find? (fun gormMedia => gormMedia.id == media.id) = none →
      UpdateMediaRepo store media = (.error .mediaNotFound, store)) ∧
    (∀ existingMedia,
      store.find? (fun gormMedia => gormMedia.id == media.id) = some existingMedia →
      media.kinopoiskId ≠ existingMedia.kinopoiskId →
      UpdateMediaRepo store media = (.error .kinopoiskIdMismatch, store)) := by
  constructor
  · intro h
    unfold UpdateMediaRepo
    rw [h]
  · intro existingMedia h hne
    unfold UpdateMediaRepo
    rw [h]
    simp [bne_iff_ne, hne]

/-- C7: witness exercising both guard branches at concrete inputs. -/
theorem updateMediaRepoGuards_C7_witness :
    UpdateMediaRepo gStore0 mediaMiss = (.error .mediaNotFound, gStore0) ∧
    UpdateMediaRepo gStore0 mediaBad = (.error .kinopoiskIdMismatch, gStore0) :=
  ⟨(updateMediaRepoGuards_C7 gStore0 mediaMiss).1 (by decide),
   (updateMediaRepoGuards_C7 gStore0 mediaBad).2 g1 (by decide) (by decide)⟩

/-- C8: for a catalog record under duplicate-free inputs, the async
reconcile trace contains, at that record's external id: exactly the one
update carrying the local internal id when a local match exists and the
Change Detector fires; nothing when a match exists but nothing changed;
exactly the one create when no local match exists. -/
theorem asyncReconcileActions_C8 (locals catalogs : List Media)
    (hl : (locals.map (fun media => media.tmdbId)).Nodup)
    (hc : (catalogs.map (fun media => media.tmdbId)).Nodup)
    (c : Media) (hmem : c ∈ catalogs) :
    (∀ l ∈ locals, l.tmdbId = c.tmdbId →
      (needsUpdate l c = true →
        (updateDatabaseAsync locals catalogs).filter (fun a => a.actionId == c.tmdbId)
          = [DbAction.update { c with id := l.id }]) ∧
      (needsUpdate l c = false →
        (updateDatabaseAsync locals catalogs).filter (fun a => a.actionId == c.tmdbId) = [])) ∧
    ((∀ l ∈ locals, l.tmdbId ≠ c.tmdbId) →
      (updateDatabaseAsync locals catalogs).filter (fun a => a.actionId == c.tmdbId)
        = [DbAction.create c]) := by
  have hsing := actionsFor_singleton (buildMediaMap locals) catalogs hc c hmem
  constructor
  · intro l hlm hlid
    have hlook : buildMediaMap locals c.tmdbId = some l := by
      rw [buildMediaMap_eq_lastWithId]
      exact lastWithId_nodup locals c.tmdbId l hl hlm hlid
    constructor
    · intro hu
      rw [updateDatabaseAsync, hsing, asyncActionFor_update _ c l hlook hu]
      rfl
    · intro hu
      rw [updateDatabaseAsync, hsing, asyncActionFor_none _ c l hlook hu]
      rfl
  · intro hnone
    have hlook : buildMediaMap locals c.tmdbId = none := by
      rw [buildMediaMap_eq_lastWithId]
      exact lastWithId_none locals c.tmdbId hnone
    rw [updateDatabaseAsync, hsing, asyncActionFor_create _ c hlook]
    rfl

/-- C8: witness — the update branch at a concrete input. -/
theorem asyncReconcileActions_C8_witness :
    (updateDatabaseAsync [mLocal5] [mCatalog5]).filter
        (fun a => a.actionId == mCatalog5.tmdbId)
      = [DbAction.update { mCatalog5 with id := mLocal5.id }] :=
  ((asyncReconcileActions_C8 [mLocal5] [mCatalog5] (by decide) (by decide) mCatalog5
      (by decide)).1 mLocal5 (by decide) (by decide)).1 (by decide)

/-- C9: running the async reconcile a second time over locals that
reflect the first run's persisted writes (update rows store the carried
record verbatim, created rows the catalog record under a store-assigned
id) issues no write at all; and the first run issues at most one write
per external id, so across both runs each id sees at most one create
and at most one update. -/
theorem reconcileIdempotent_C9 (locals catalogs : List Media) (fresh : Media → Int)
    (hc : (catalogs.map (fun media => media.tmdbId)).Nodup) :
    updateDatabaseAsync (catalogs.map (fun c => persistedAfterRun locals (fresh c) c)) catalogs
      = [] ∧
    ∀ i, ((updateDatabaseAsync locals catalogs).filter (fun a => a.actionId == i)).length ≤ 1 := by
  constructor
  · unfold updateDatabaseAsync
    apply filterMap_eq_nil_of_none
    intro c hmem
    have hnd2 : ((catalogs.map (fun c => persistedAfterRun locals (fresh c) c)).map
        (fun media => media.tmdbId)).Nodup := by
      rw [persisted_map_ids]
      exact hc
    have hlook : buildMediaMap (catalogs.map (fun c => persistedAfterRun locals (fresh c) c))
        c.tmdbId = some (persistedAfterRun locals (fresh c) c) := by
      rw [buildMediaMap_eq_lastWithId]
      exact lastWithId_nodup _ c.tmdbId _ hnd2 (List.mem_map_of_mem _ hmem)
        (persistedAfterRun_tmdbId locals (fresh c) c)
    exact asyncActionFor_none _ c _ hlook (needsUpdate_persisted locals (fresh c) c)
  · intro i
    exact actionsFor_length_le_one (buildMediaMap locals) catalogs hc i

/-- C9: witness at a concrete input (one updated id, one created id). -/
theorem reconcileIdempotent_C9_witness :
    updateDatabaseAsync
        ([mCatalog5, mOther9].map (fun c => persistedAfterRun [mLocal5] ((fun _ => (7 : Int)) c) c))
        [mCatalog5, mOther9] = [] ∧
    ((updateDatabaseAsync [mLocal5] [mCatalog5, mOther9]).filter
        (fun a => a.actionId == (5 : Int))).length ≤ 1 :=
  ⟨(reconcileIdempotent_C9 [mLocal5] [mCatalog5, mOther9] (fun _ => 7) (by decide)).1,
   (reconcileIdempotent_C9 [mLocal5] [mCatalog5, mOther9] (fun _ => 7) (by decide)).2 5⟩

/-- C10: when the stored record with the caller's internal id agrees on
all eight compared fields, the TMDB-era service `UpdateMedia` returns
the "all fields are the same, nothing to update" error and leaves the
store untouched. -/
theorem updateMediaNoop_C10 (store : List Media) (media existingMedia : Media)
    (hfind : store.find? (fun row => row.id == media.id) = some existingMedia)
    (heq : existingMedia.tmdbId = media.tmdbId ∧ existingMedia.type = media.type ∧
           existingMedia.title = media.title ∧ existingMedia.titleRu = media.titleRu ∧
           existingMedia.description = media.description ∧
           existingMedia.descriptionRu = media.descriptionRu ∧
           existingMedia.releaseDate = media.releaseDate ∧
           existingMedia.poster = media.poster) :
    UpdateMedia store media = (.error "all fields are the same, nothing to update", store) := by
  obtain ⟨h1, h2, h3, h4, h5, h6, h7, h8⟩ := heq
  unfold UpdateMedia GetMediaByIDRepoT
  rw [hfind]
  simp [h1, h2, h3, h4, h5, h6, h7, h8]

/-- C10: witness at a concrete input. -/
theorem updateMediaNoop_C10_witness :
    UpdateMedia [mLocal5] mLocal5
      = (.error "all fields are the same, nothing to update", [mLocal5]) :=
  updateMediaNoop_C10 [mLocal5] mLocal5 mLocal5 (by decide) (by decide)
